import Mathlib

/-!
Shallow embedding of the LiSearch tool-calling core.

The embedding follows the Python sources:
  - src/llm/base.py       : BaseLLM.chat_with_tools, the orchestration loop
  - src/llm/gemini.py     : GeminiLLM.chat, GeminiLLM.execute_tool_call
  - src/database/queries.py : the Data Access Functions

The abstract methods of BaseLLM (chat, execute_tool_call,
format_tool_response) become function parameters of the orchestrator.
Python exceptions raised by an external collaborator are modelled as a
distinguished constructor of the collaborator's reply type; catching an
exception corresponds to matching on that constructor.
-/

set_option maxHeartbeats 1000000

namespace LiSearch

/-- Message dict with keys role and content (src/llm/base.py, src/app.py). -/
structure Message where
  role : String
  content : String
deriving DecidableEq

/-- Entry of response tool_calls as built by GeminiLLM.chat: a dict with
keys name and arguments.  The argument mapping is opaque to the
orchestrator, so its type is a parameter. -/
structure ToolCall (Args : Type) where
  name : String
  arguments : Args
deriving DecidableEq

/-- Provider-agnostic chat result: the dict with keys content and
tool_calls returned by the chat method (src/llm/gemini.py lines 83-106). -/
structure ChatResponse (Args : Type) where
  content : String
  tool_calls : List (ToolCall Args)
deriving DecidableEq

/-- Entry appended to tool_calls_made (src/llm/base.py lines 133-138):
the dict with keys name, arguments, result. -/
structure ToolRecord (Args Res : Type) where
  name : String
  arguments : Args
  result : Res
deriving DecidableEq

/-- Return value of chat_with_tools: keys response, tool_calls_made,
iterations, and the optional error key that is present exactly in the
max-iterations return (src/llm/base.py lines 118-124 and 154-160). -/
structure ChatResult (Args Res : Type) where
  response : String
  tool_calls_made : List (ToolRecord Args Res)
  iterations : Nat
  error : Option String
deriving DecidableEq

/-- Observable outcome of one chat_with_tools run.  result and messages
mirror the Python locals (the returned dict and the final contents of
the messages list object); trace is a ghost observation recording, in
order, every response the chat method returned during the run, so that
properties about the adapter interaction can be stated.  The number of
chat calls made is trace.length. -/
structure LoopOut (Args Res : Type) where
  result : ChatResult Args Res
  messages : List Message
  trace : List (ChatResponse Args)
deriving DecidableEq

/-- The fixed fallback string of the max-iterations return
(src/llm/base.py line 156). -/
def fallbackMessage : String :=
  "I apologize, but I\x27m having trouble processing your request. Please try rephrasing."

/-- Value of the error key in the max-iterations return
(src/llm/base.py line 159). -/
def maxIterationsError : String := "max_iterations_reached"

/-- The for-loop over response tool_calls (src/llm/base.py lines
127-152): executes each tool call, appends the record to
tool_calls_made, and appends the synthetic assistant and user turns to
messages, in emission order. -/
def processToolCalls {Args Res : Type} (execTool : String → Args → Res)
    (fmt : String → Res → String) :
    List (ToolCall Args) → List Message → List (ToolRecord Args Res) →
    List Message × List (ToolRecord Args Res)
  | [], messages, made => (messages, made)
  | tc :: rest, messages, made =>
    let tool_result := execTool tc.name tc.arguments
    let made := made ++ [⟨tc.name, tc.arguments, tool_result⟩]
    let formatted := fmt tc.name tool_result
    let messages := messages ++
      [⟨"assistant", "[Tool call: " ++ tc.name ++ "]"⟩, ⟨"user", formatted⟩]
    processToolCalls execTool fmt rest messages made

/-- The while-loop of chat_with_tools (src/llm/base.py lines 111-160).
The Python condition iterations < max_iterations is rendered by the
fuel argument, equal to max_iterations - iterations; the loop body
increments iterations, calls chat once, returns on an empty tool_calls
list, and otherwise executes the tool calls and continues. -/
def chatLoop {Args Res : Type} (chat : List Message → ChatResponse Args)
    (execTool : String → Args → Res) (fmt : String → Res → String) :
    Nat → List Message → List (ToolRecord Args Res) → Nat → LoopOut Args Res
  | 0, messages, made, iterations =>
    ⟨⟨fallbackMessage, made, iterations, some maxIterationsError⟩, messages, []⟩
  | fuel + 1, messages, made, iterations =>
    let iterations := iterations + 1
    let response := chat messages
    if response.tool_calls.isEmpty then
      ⟨⟨response.content, made, iterations, none⟩, messages, [response]⟩
    else
      let next := processToolCalls execTool fmt response.tool_calls messages made
      let out := chatLoop chat execTool fmt fuel next.1 next.2 iterations
      ⟨out.result, out.messages, response :: out.trace⟩

/-- BaseLLM.chat_with_tools (src/llm/base.py lines 76-160).  The user
message is appended to the history, then the loop runs with
tool_calls_made = [] and iterations = 0.  max_iterations is an Int as
in Python; the loop executes max(max_iterations, 0) = toNat iterations
unless it returns earlier. -/
def chat_with_tools {Args Res : Type} (chat : List Message → ChatResponse Args)
    (execTool : String → Args → Res) (fmt : String → Res → String)
    (user_message : String) (conversation_history : List Message)
    (max_iterations : Int) : LoopOut Args Res :=
  let messages := conversation_history ++ [⟨"user", user_message⟩]
  chatLoop chat execTool fmt max_iterations.toNat messages [] 0

/-- Final contents of the list object the caller passed as
conversation_history.  The Python line `messages = conversation_history
or []` binds messages to the caller's own list when that list is
non-empty (a non-empty list is truthy) and to a fresh list otherwise;
every append then mutates the caller's list in place.  So after the run
the caller's list holds the final messages when it was non-empty, and is
still empty when it was empty. -/
def callerHistoryAfter {Args Res : Type} (chat : List Message → ChatResponse Args)
    (execTool : String → Args → Res) (fmt : String → Res → String)
    (user_message : String) (conversation_history : List Message)
    (max_iterations : Int) : List Message :=
  if conversation_history.isEmpty then conversation_history
  else (chat_with_tools chat execTool fmt user_message conversation_history
    max_iterations).messages

/-! Gemini adapter (src/llm/gemini.py). -/

/-- One part of a provider candidate's content: it may carry a
function_call (name and args) and may carry text.  Mirrors the part
objects iterated in GeminiLLM.chat lines 89-99; absence of an attribute
or a falsy value is modelled by none (for text, a present empty string
is falsy in Python, which the parsing handles explicitly). -/
structure GPart (Args : Type) where
  function_call : Option (ToolCall Args)
  text : Option String
deriving DecidableEq

/-- Body of the part loop in GeminiLLM.chat lines 89-99: append the
function call to tool_calls when present and truthy, then append the
text to content when present and truthy (non-empty). -/
def collectPart {Args : Type} (acc : ChatResponse Args) (part : GPart Args) :
    ChatResponse Args :=
  let acc :=
    match part.function_call with
    | some fc => ⟨acc.content, acc.tool_calls ++ [fc]⟩
    | none => acc
  match part.text with
  | some t => if t == "" then acc else ⟨acc.content ++ t, acc.tool_calls⟩
  | none => acc

/-- Response parsing of GeminiLLM.chat lines 83-106: fold over all
candidates and their parts starting from content = "" and
tool_calls = [], then substitute the placeholder when there are tool
calls but no text. -/
def geminiParse {Args : Type} (candidates : List (List (GPart Args))) :
    ChatResponse Args :=
  let result := candidates.foldl (fun acc c => c.foldl collectPart acc) ⟨"", []⟩
  if !result.tool_calls.isEmpty && result.content == "" then
    ⟨"[Calling tools...]", result.tool_calls⟩
  else result

/-- Prompt building of GeminiLLM.chat lines 51-63: each system, user or
assistant message contributes one role-prefixed block ending in a
newline, any other role contributes nothing, and the blocks are joined
with a newline. -/
def buildPrompt (messages : List Message) : String :=
  let prompt_parts := messages.foldl (fun acc m =>
    if m.role == "system" then acc ++ ["System: " ++ m.content ++ "\n"]
    else if m.role == "user" then acc ++ ["User: " ++ m.content ++ "\n"]
    else if m.role == "assistant" then acc ++ ["Assistant: " ++ m.content ++ "\n"]
    else acc) []
  String.intercalate "\n" prompt_parts

/-- Reply of one provider call: either candidates, or a raised
exception carried as its description string. -/
inductive ProviderReply (Args : Type) where
  | ok : List (List (GPart Args)) → ProviderReply Args
  | raised : String → ProviderReply Args
deriving DecidableEq

/-- GeminiLLM.chat lines 41-115: build the prompt, issue one provider
call, and parse the reply; the try/except returns the dict with content
"Error: " followed by the description and an empty tool_calls list when
the call (or anything else in the try block) raises. -/
def geminiChat {Args : Type} (provider : String → ProviderReply Args)
    (messages : List Message) : ChatResponse Args :=
  match provider (buildPrompt messages) with
  | .ok candidates => geminiParse candidates
  | .raised e => ⟨"Error: " ++ e, []⟩

/-! Tool dispatch (src/llm/gemini.py, execute_tool_call). -/

/-- Outcome of calling a bound Python function: a returned value or a
raised exception carried as its description string. -/
inductive CallOutcome (Res : Type) where
  | ok : Res → CallOutcome Res
  | raised : String → CallOutcome Res
deriving DecidableEq

/-- Value returned by execute_tool_call: the tool's result, or the
structured error dict, modelled as its error string. -/
inductive ToolOutcome (Res : Type) where
  | value : Res → ToolOutcome Res
  | error : String → ToolOutcome Res
deriving DecidableEq

/-- Keys of self.tool_map (src/llm/gemini.py lines 29-37). -/
def toolMapNames : List String :=
  ["get_top_selling_products", "get_trending_products",
   "search_products_by_description", "get_low_stock_products",
   "get_sales_summary_by_category", "get_product_details",
   "get_recent_transactions"]

/-- GeminiLLM.execute_tool_call lines 117-135: a name outside tool_map
yields the structured error dict naming the tool; otherwise the bound
function is applied and a raised exception is caught and returned as an
error dict.  The function is total: no path raises. -/
def execute_tool_call {Args Res : Type} (dispatch : String → Args → CallOutcome Res)
    (tool_name : String) (tool_args : Args) : ToolOutcome Res :=
  if tool_name ∉ toolMapNames then
    .error ("Unknown tool: " ++ tool_name)
  else
    match dispatch tool_name tool_args with
    | .ok r => .value r
    | .raised e => .error e

/-! Data Access Functions (src/database/queries.py).  Each wraps one
supabase RPC call; the backend is a parameter mapping the RPC name and
its parameter dict to a reply or a raised exception.  Rows are opaque
to this layer, so their type is a parameter. -/

/-- Parameter value of an RPC payload: a string, an int, or null. -/
inductive PVal where
  | s : String → PVal
  | i : Int → PVal
  | null : PVal
deriving DecidableEq

/-- A Python Optional[str] argument as an RPC parameter value. -/
def optStr : Option String → PVal
  | some v => .s v
  | none => .null

/-- A Python Optional[int] argument as an RPC parameter value. -/
def optInt : Option Int → PVal
  | some v => .i v
  | none => .null

/-- queries.get_top_selling_products lines 14-38: one RPC call; on a
raised exception the except block returns the empty list.  Python
defaults are limit = 10, days = 30. -/
def get_top_selling_products {Row : Type}
    (rpc : String → List (String × PVal) → CallOutcome (List Row))
    (category : Option String) (limit : Int) (days : Int) : List Row :=
  match rpc "get_top_selling_products"
      [("p_category", optStr category), ("p_limit", .i limit), ("p_days", .i days)] with
  | .ok data => data
  | .raised _ => []

/-- queries.get_trending_products lines 41-60: on a raised exception
returns the empty list.  Python defaults are days = 7, limit = 10. -/
def get_trending_products {Row : Type}
    (rpc : String → List (String × PVal) → CallOutcome (List Row))
    (days : Int) (limit : Int) : List Row :=
  match rpc "get_trending_products" [("p_days", .i days), ("p_limit", .i limit)] with
  | .ok data => data
  | .raised _ => []

/-- queries.search_products_by_description lines 63-79: on a raised
exception returns the empty list. -/
def search_products_by_description {Row : Type}
    (rpc : String → List (String × PVal) → CallOutcome (List Row))
    (search_term : String) : List Row :=
  match rpc "search_products_by_description" [("p_search_term", .s search_term)] with
  | .ok data => data
  | .raised _ => []

/-- queries.get_low_stock_products lines 82-99: on a raised exception
returns the empty list.  Python default is limit = 20. -/
def get_low_stock_products {Row : Type}
    (rpc : String → List (String × PVal) → CallOutcome (List Row))
    (limit : Int) : List Row :=
  match rpc "get_low_stock_products" [("p_limit", .i limit)] with
  | .ok data => data
  | .raised _ => []

/-- queries.get_sales_summary_by_category lines 102-119: on a raised
exception returns the empty list.  Python default is days = 30. -/
def get_sales_summary_by_category {Row : Type}
    (rpc : String → List (String × PVal) → CallOutcome (List Row))
    (days : Int) : List Row :=
  match rpc "get_sales_summary_by_category" [("p_days", .i days)] with
  | .ok data => data
  | .raised _ => []

/-- queries.get_product_details lines 122-145: one RPC call; on success
returns the first row if any, else none; on a raised exception the
except block returns None. -/
def get_product_details {Row : Type}
    (rpc : String → List (String × PVal) → CallOutcome (List Row))
    (product_id : Option Int) (product_name : Option String) : Option Row :=
  match rpc "get_product_details"
      [("p_product_id", optInt product_id), ("p_product_name", optStr product_name)] with
  | .ok data => data.head?
  | .raised _ => none

/-- queries.get_recent_transactions lines 148-164: on a raised
exception returns the empty list.  Python default is limit = 10. -/
def get_recent_transactions {Row : Type}
    (rpc : String → List (String × PVal) → CallOutcome (List Row))
    (limit : Int) : List Row :=
  match rpc "get_recent_transactions" [("p_limit", .i limit)] with
  | .ok data => data
  | .raised _ => []

/-! Derived forms of the loop's accumulators, used to state properties. -/

/-- The records that the for-loop body appends for a list of tool
calls: one record per call, carrying its name, its arguments and the
result of execute_tool_call, in order. -/
def recordsOf {Args Res : Type} (execTool : String → Args → Res)
    (tcs : List (ToolCall Args)) : List (ToolRecord Args Res) :=
  tcs.map fun tc => ⟨tc.name, tc.arguments, execTool tc.name tc.arguments⟩

/-- The synthetic conversation turns the for-loop body appends for a
list of tool calls: per call, one assistant turn naming the call and
one user turn holding the formatted result. -/
def toolTurns {Args Res : Type} (execTool : String → Args → Res)
    (fmt : String → Res → String) (tcs : List (ToolCall Args)) : List Message :=
  tcs.flatMap fun tc =>
    [⟨"assistant", "[Tool call: " ++ tc.name ++ "]"⟩,
     ⟨"user", fmt tc.name (execTool tc.name tc.arguments)⟩]

/-- All records generated by a sequence of adapter responses: the
concatenation, response by response, of the records of each response's
tool calls. -/
def traceRecords {Args Res : Type} (execTool : String → Args → Res)
    (trace : List (ChatResponse Args)) : List (ToolRecord Args Res) :=
  trace.flatMap fun r => recordsOf execTool r.tool_calls

/-- Closed form of the for-loop over tool calls: it extends messages by
the synthetic turns and tool_calls_made by the records, both in
emission order. -/
theorem processToolCalls_eq {Args Res : Type} (execTool : String → Args → Res)
    (fmt : String → Res → String) :
    ∀ (tcs : List (ToolCall Args)) (messages : List Message)
      (made : List (ToolRecord Args Res)),
    processToolCalls execTool fmt tcs messages made =
      (messages ++ toolTurns execTool fmt tcs, made ++ recordsOf execTool tcs)
  | [], messages, made => by
    simp [processToolCalls, toolTurns, recordsOf]
  | tc :: rest, messages, made => by
    simp only [processToolCalls]
    rw [processToolCalls_eq]
    simp [toolTurns, recordsOf, List.flatMap_cons]

/-- The loop performs at most fuel further iterations: the final value
of the iterations counter is bounded by its start value plus fuel. -/
theorem chatLoop_iterations_le {Args Res : Type}
    (chat : List Message → ChatResponse Args) (execTool : String → Args → Res)
    (fmt : String → Res → String) :
    ∀ (fuel : Nat) (messages : List Message) (made : List (ToolRecord Args Res))
      (iterations : Nat),
    (chatLoop chat execTool fmt fuel messages made iterations).result.iterations ≤
      iterations + fuel := by
  intro fuel
  induction fuel with
  | zero => intro m md its; simp [chatLoop]
  | succ f ih =>
    intro m md its
    simp only [chatLoop]
    by_cases h : (chat m).tool_calls.isEmpty
    · simp [h]
    · simp only [h, Bool.false_eq_true, if_false]
      exact le_trans (ih _ _ _) (by omega)

/-- The loop calls the adapter at most fuel times. -/
theorem chatLoop_trace_length_le {Args Res : Type}
    (chat : List Message → ChatResponse Args) (execTool : String → Args → Res)
    (fmt : String → Res → String) :
    ∀ (fuel : Nat) (messages : List Message) (made : List (ToolRecord Args Res))
      (iterations : Nat),
    (chatLoop chat execTool fmt fuel messages made iterations).trace.length ≤ fuel := by
  intro fuel
  induction fuel with
  | zero => intro m md its; simp [chatLoop]
  | succ f ih =>
    intro m md its
    simp only [chatLoop]
    by_cases h : (chat m).tool_calls.isEmpty
    · simp [h]
    · simp only [h, Bool.false_eq_true, if_false, List.length_cons]
      exact Nat.succ_le_succ (ih _ _ _)

/-- The final tool_calls_made is the starting accumulator followed by
exactly the records of every tool call of every adapter response of the
run, in emission order. -/
theorem chatLoop_tool_calls_made {Args Res : Type}
    (chat : List Message → ChatResponse Args) (execTool : String → Args → Res)
    (fmt : String → Res → String) :
    ∀ (fuel : Nat) (messages : List Message) (made : List (ToolRecord Args Res))
      (iterations : Nat),
    (chatLoop chat execTool fmt fuel messages made iterations).result.tool_calls_made =
      made ++ traceRecords execTool
        (chatLoop chat execTool fmt fuel messages made iterations).trace := by
  intro fuel
  induction fuel with
  | zero => intro m md its; simp [chatLoop, traceRecords]
  | succ f ih =>
    intro m md its
    simp only [chatLoop]
    by_cases h : (chat m).tool_calls.isEmpty
    · have h0 : (chat m).tool_calls = [] := List.isEmpty_iff.mp h
      simp [h, traceRecords, h0, recordsOf]
    · simp only [h, Bool.false_eq_true, if_false]
      rw [processToolCalls_eq]
      simp only [traceRecords, List.flatMap_cons]
      rw [ih]
      simp [traceRecords, List.append_assoc]

/-- The loop only appends to messages: its final messages extend the
starting list. -/
theorem chatLoop_messages_append {Args Res : Type}
    (chat : List Message → ChatResponse Args) (execTool : String → Args → Res)
    (fmt : String → Res → String) :
    ∀ (fuel : Nat) (messages : List Message) (made : List (ToolRecord Args Res))
      (iterations : Nat),
    ∃ t, (chatLoop chat execTool fmt fuel messages made iterations).messages =
      messages ++ t := by
  intro fuel
  induction fuel with
  | zero => intro m md its; exact ⟨[], by simp [chatLoop]⟩
  | succ f ih =>
    intro m md its
    simp only [chatLoop]
    by_cases h : (chat m).tool_calls.isEmpty
    · exact ⟨[], by simp [h]⟩
    · simp only [h, Bool.false_eq_true, if_false]
      rw [processToolCalls_eq]
      obtain ⟨t, ht⟩ := ih (m ++ toolTurns execTool fmt (chat m).tool_calls)
        (md ++ recordsOf execTool (chat m).tool_calls) (its + 1)
      exact ⟨toolTurns execTool fmt (chat m).tool_calls ++ t, by
        simp only [ht, List.append_assoc]⟩

/-- When every adapter response carries at least one tool call, the
loop consumes all its fuel: it returns the fallback text, sets the
error marker, leaves iterations at its start value plus fuel, and has
called the adapter exactly fuel times. -/
theorem chatLoop_exhausted {Args Res : Type}
    (chat : List Message → ChatResponse Args) (execTool : String → Args → Res)
    (fmt : String → Res → String) (h : ∀ m, (chat m).tool_calls ≠ []) :
    ∀ (fuel : Nat) (messages : List Message) (made : List (ToolRecord Args Res))
      (iterations : Nat),
    (chatLoop chat execTool fmt fuel messages made iterations).result.response =
        fallbackMessage ∧
    (chatLoop chat execTool fmt fuel messages made iterations).result.error =
        some maxIterationsError ∧
    (chatLoop chat execTool fmt fuel messages made iterations).result.iterations =
        iterations + fuel ∧
    (chatLoop chat execTool fmt fuel messages made iterations).trace.length = fuel := by
  intro fuel
  induction fuel with
  | zero => intro m md its; simp [chatLoop]
  | succ f ih =>
    intro m md its
    have hne : ¬(chat m).tool_calls.isEmpty = true := by
      simpa [List.isEmpty_iff] using h m
    simp only [chatLoop, hne, Bool.false_eq_true, if_false]
    obtain ⟨h1, h2, h3, h4⟩ := ih
      (processToolCalls execTool fmt (chat m).tool_calls m md).1
      (processToolCalls execTool fmt (chat m).tool_calls m md).2 (its + 1)
    refine ⟨h1, h2, ?_, ?_⟩
    · rw [h3]; omega
    · simp [h4]

/-- Shape of the returned response text.  When the run returned from
inside the loop (no error key), the trace is non-empty, its last
response has no tool calls, and the response text is that response's
content.  When the error key is present, it is the max-iterations
marker and the response text is the fixed fallback. -/
theorem chatLoop_response_spec {Args Res : Type}
    (chat : List Message → ChatResponse Args) (execTool : String → Args → Res)
    (fmt : String → Res → String) :
    ∀ (fuel : Nat) (messages : List Message) (made : List (ToolRecord Args Res))
      (iterations : Nat),
    ((chatLoop chat execTool fmt fuel messages made iterations).result.error = none →
      ∃ pre r,
        (chatLoop chat execTool fmt fuel messages made iterations).trace = pre ++ [r] ∧
        r.tool_calls = [] ∧
        (chatLoop chat execTool fmt fuel messages made iterations).result.response =
          r.content) ∧
    ((chatLoop chat execTool fmt fuel messages made iterations).result.error ≠ none →
      (chatLoop chat execTool fmt fuel messages made iterations).result.response =
          fallbackMessage ∧
      (chatLoop chat execTool fmt fuel messages made iterations).result.error =
          some maxIterationsError) := by
  intro fuel
  induction fuel with
  | zero =>
    intro m md its
    constructor
    · intro hnone; simp [chatLoop] at hnone
    · intro _; simp [chatLoop]
  | succ f ih =>
    intro m md its
    by_cases h : (chat m).tool_calls.isEmpty
    · have h0 : (chat m).tool_calls = [] := List.isEmpty_iff.mp h
      constructor
      · intro _
        exact ⟨[], chat m, by simp [chatLoop, h], h0, by simp [chatLoop, h]⟩
      · intro hne
        exact absurd (by simp [chatLoop, h]) hne
    · have hrec := ih (processToolCalls execTool fmt (chat m).tool_calls m md).1
        (processToolCalls execTool fmt (chat m).tool_calls m md).2 (its + 1)
      constructor
      · intro hnone
        have hnone2 : (chatLoop chat execTool fmt f
            (processToolCalls execTool fmt (chat m).tool_calls m md).1
            (processToolCalls execTool fmt (chat m).tool_calls m md).2
            (its + 1)).result.error = none := by
          simpa [chatLoop, h] using hnone
        obtain ⟨pre, r, hpre, htc, hresp⟩ := hrec.1 hnone2
        refine ⟨chat m :: pre, r, ?_, htc, ?_⟩
        · simp [chatLoop, h, hpre]
        · simpa [chatLoop, h] using hresp
      · intro hne
        have hne2 : (chatLoop chat execTool fmt f
            (processToolCalls execTool fmt (chat m).tool_calls m md).1
            (processToolCalls execTool fmt (chat m).tool_calls m md).2
            (its + 1)).result.error ≠ none := by
          simpa [chatLoop, h] using hne
        obtain ⟨hr, he⟩ := hrec.2 hne2
        constructor
        · simpa [chatLoop, h] using hr
        · simpa [chatLoop, h] using he

/-! Concrete instances used to evaluate the definitions on closed runs. -/

/-- An adapter that always answers with plain text and no tool calls. -/
def plainAdapter : List Message → ChatResponse Nat := fun _ => ⟨"ok", []⟩

/-- An adapter that always requests one tool call. -/
def toolAdapter : List Message → ChatResponse Nat :=
  fun _ => ⟨"[Calling tools...]", [⟨"get_low_stock_products", 20⟩]⟩

/-- A concrete tool executor. -/
def execStub : String → Nat → Nat := fun _ n => n + 1

/-- A concrete result formatter. -/
def fmtStub : String → Nat → String := fun name _ => name

/-- A provider call that always raises. -/
def failingProvider : String → ProviderReply Nat := fun _ => .raised "boom"

/-- A backend rpc call that always raises, with Nat rows. -/
def failingRpc : String → List (String × PVal) → CallOutcome (List Nat) :=
  fun _ _ => CallOutcome.raised "network down"

/-- An adapter built from the Gemini parsing applied to a provider
reply with no candidates: its content is empty and it carries no tool
calls. -/
def emptyGemini : List Message → ChatResponse Nat :=
  fun _ => geminiParse ([] : List (List (GPart Nat)))

/-! Claims. -/

/-- C1: for every max_iterations >= 1, every conversation history and
every sequence of adapter responses, chat_with_tools terminates (it is
a total function of this embedding) making at most max_iterations chat
calls (the trace records one entry per chat call), and the returned
iterations value never exceeds max_iterations. -/
theorem C1_iteration_bound {Args Res : Type}
    (chat : List Message → ChatResponse Args) (execTool : String → Args → Res)
    (fmt : String → Res → String) (user_message : String)
    (conversation_history : List Message) (max_iterations : Int)
    (h : 1 ≤ max_iterations) :
    (((chat_with_tools chat execTool fmt user_message conversation_history
        max_iterations).trace.length : Int) ≤ max_iterations) ∧
    (((chat_with_tools chat execTool fmt user_message conversation_history
        max_iterations).result.iterations : Int) ≤ max_iterations) := by
  simp only [chat_with_tools]
  constructor
  · have := chatLoop_trace_length_le chat execTool fmt max_iterations.toNat
      (conversation_history ++ [⟨"user", user_message⟩]) [] 0
    omega
  · have := chatLoop_iterations_le chat execTool fmt max_iterations.toNat
      (conversation_history ++ [⟨"user", user_message⟩]) [] 0
    omega

theorem C1_iteration_bound_witness :
    (((chat_with_tools plainAdapter execStub fmtStub "hi" [] 5).trace.length : Int) ≤ 5) ∧
    (((chat_with_tools plainAdapter execStub fmtStub "hi" [] 5).result.iterations : Int) ≤ 5) :=
  C1_iteration_bound plainAdapter execStub fmtStub "hi" [] 5 (by norm_num)

/-- C2: in every run of chat_with_tools, tool_calls_made equals the
records of every tool request of every adapter response of the run,
response by response and within a response in emission order, each
record carrying the request's name, its arguments, and the value
execute_tool_call returned for them.  In particular its length is the
total number of requests emitted. -/
theorem C2_tool_calls_made_eq_trace_records {Args Res : Type}
    (chat : List Message → ChatResponse Args) (execTool : String → Args → Res)
    (fmt : String → Res → String) (user_message : String)
    (conversation_history : List Message) (max_iterations : Int) :
    (chat_with_tools chat execTool fmt user_message conversation_history
        max_iterations).result.tool_calls_made =
      traceRecords execTool
        (chat_with_tools chat execTool fmt user_message conversation_history
          max_iterations).trace := by
  simp only [chat_with_tools]
  have := chatLoop_tool_calls_made chat execTool fmt max_iterations.toNat
    (conversation_history ++ [⟨"user", user_message⟩]) [] 0
  simpa using this

/-- C3: if every adapter response carries at least one tool request,
then for every max_iterations >= 1 the run is exhausted: iterations
equals max_iterations, the error marker max_iterations_reached is set,
and the final text is the fixed fallback string. -/
theorem C3_always_tools_exhausts {Args Res : Type}
    (chat : List Message → ChatResponse Args) (execTool : String → Args → Res)
    (fmt : String → Res → String) (user_message : String)
    (conversation_history : List Message) (max_iterations : Int)
    (h1 : 1 ≤ max_iterations) (h2 : ∀ m, (chat m).tool_calls ≠ []) :
    (((chat_with_tools chat execTool fmt user_message conversation_history
        max_iterations).result.iterations : Int) = max_iterations) ∧
    ((chat_with_tools chat execTool fmt user_message conversation_history
        max_iterations).result.error = some maxIterationsError) ∧
    ((chat_with_tools chat execTool fmt user_message conversation_history
        max_iterations).result.response = fallbackMessage) := by
  simp only [chat_with_tools]
  obtain ⟨hr, he, hi, _⟩ := chatLoop_exhausted chat execTool fmt h2
    max_iterations.toNat (conversation_history ++ [⟨"user", user_message⟩]) [] 0
  refine ⟨?_, he, hr⟩
  rw [hi]; omega

theorem C3_always_tools_exhausts_witness :
    (((chat_with_tools toolAdapter execStub fmtStub "hi" [] 3).result.iterations : Int) = 3) ∧
    ((chat_with_tools toolAdapter execStub fmtStub "hi" [] 3).result.error =
      some maxIterationsError) ∧
    ((chat_with_tools toolAdapter execStub fmtStub "hi" [] 3).result.response =
      fallbackMessage) :=
  C3_always_tools_exhausts toolAdapter execStub fmtStub "hi" [] 3 (by norm_num)
    (fun m => by simp [toolAdapter])

/-- C4, counterexample: a run whose adapter is the Gemini parsing of a
provider reply with no candidates returns with no error marker (not
exhausted) and an empty final text, so the final text of a
non-exhausted run can be empty. -/
theorem C4_counterexample :
    ((chat_with_tools emptyGemini execStub fmtStub "hi" [] 5).result.error = none) ∧
    ((chat_with_tools emptyGemini execStub fmtStub "hi" [] 5).result.response = "") := by
  constructor <;> rfl

/-- C4, amended: when the run is not exhausted (no error marker), the
final text is the content of the adapter's last response, a response
with no tool requests — non-empty exactly when the adapter's content
is; when the run is exhausted the final text is the fixed fallback
message. -/
theorem C4_final_text_shape {Args Res : Type}
    (chat : List Message → ChatResponse Args) (execTool : String → Args → Res)
    (fmt : String → Res → String) (user_message : String)
    (conversation_history : List Message) (max_iterations : Int) :
    ((chat_with_tools chat execTool fmt user_message conversation_history
        max_iterations).result.error = none →
      ∃ pre r,
        (chat_with_tools chat execTool fmt user_message conversation_history
          max_iterations).trace = pre ++ [r] ∧
        r.tool_calls = [] ∧
        (chat_with_tools chat execTool fmt user_message conversation_history
          max_iterations).result.response = r.content) ∧
    ((chat_with_tools chat execTool fmt user_message conversation_history
        max_iterations).result.error ≠ none →
      (chat_with_tools chat execTool fmt user_message conversation_history
        max_iterations).result.response = fallbackMessage) := by
  simp only [chat_with_tools]
  have h := chatLoop_response_spec chat execTool fmt max_iterations.toNat
    (conversation_history ++ [⟨"user", user_message⟩]) [] 0
  exact ⟨h.1, fun hne => (h.2 hne).1⟩

theorem C4_final_text_shape_witness :
    (chat_with_tools toolAdapter execStub fmtStub "hi" [] 2).result.response =
      fallbackMessage :=
  (C4_final_text_shape toolAdapter execStub fmtStub "hi" [] 2).2 (by decide)

/-- C5, counterexample: after a run with a non-empty supplied history,
the contents of the caller's history object have changed (the user
message was appended to it in place), so the caller's history sequence
is not unchanged. -/
theorem C5_counterexample :
    callerHistoryAfter plainAdapter execStub fmtStub "hi" [⟨"system", "s"⟩] 5 ≠
      [⟨"system", "s"⟩] := by
  decide

/-- C5, amended: chat_with_tools appends the user message and the
synthetic tool-result turns to the caller's own history object (the
Python binding `messages = conversation_history or []` aliases a
non-empty history, and append mutates it in place), so a non-empty
caller history is extended by the run; the orchestrator is append-only:
the final message list extends the supplied history followed by the
user turn, and the caller's history object afterwards extends its
original contents — no existing message is mutated or removed. -/
theorem C5_append_only {Args Res : Type}
    (chat : List Message → ChatResponse Args) (execTool : String → Args → Res)
    (fmt : String → Res → String) (user_message : String)
    (conversation_history : List Message) (max_iterations : Int) :
    (∃ t, (chat_with_tools chat execTool fmt user_message conversation_history
        max_iterations).messages =
      (conversation_history ++ [⟨"user", user_message⟩]) ++ t) ∧
    (∃ t, callerHistoryAfter chat execTool fmt user_message conversation_history
        max_iterations = conversation_history ++ t) := by
  have h1 := chatLoop_messages_append chat execTool fmt max_iterations.toNat
    (conversation_history ++ [⟨"user", user_message⟩]) [] 0
  constructor
  · simpa only [chat_with_tools] using h1
  · by_cases he : conversation_history.isEmpty
    · exact ⟨[], by simp [callerHistoryAfter, he]⟩
    · obtain ⟨t, ht⟩ := h1
      refine ⟨[⟨"user", user_message⟩] ++ t, ?_⟩
      simp only [callerHistoryAfter, he, Bool.false_eq_true, if_false, chat_with_tools]
      rw [ht]
      simp [List.append_assoc]

/-- C6: for every tool name outside the registry and every argument
mapping, execute_tool_call returns the structured error value whose
text contains the tool name (it is the fixed prefix followed by the
name); the embedding is a total function, mirroring that no path of
the Python code raises. -/
theorem C6_unknown_tool_error {Args Res : Type}
    (dispatch : String → Args → CallOutcome Res)
    (tool_name : String) (tool_args : Args) (h : tool_name ∉ toolMapNames) :
    (execute_tool_call dispatch tool_name tool_args =
      ToolOutcome.error ("Unknown tool: " ++ tool_name)) ∧
    (∃ pre suf, "Unknown tool: " ++ tool_name = pre ++ tool_name ++ suf) := by
  refine ⟨by simp [execute_tool_call, h], "Unknown tool: ", "", by simp⟩

theorem C6_unknown_tool_error_witness :
    execute_tool_call (fun _ (n : Nat) => CallOutcome.ok n) "drop_all_tables" 0 =
      ToolOutcome.error ("Unknown tool: drop_all_tables") :=
  (C6_unknown_tool_error (fun _ (n : Nat) => CallOutcome.ok n) "drop_all_tables" 0
    (by decide)).1

/-- C7: when the provider call raises, the Gemini chat method returns,
for every message sequence, the description prefixed with "Error: "
and an empty tool-request list instead of propagating; an orchestration
run over this adapter therefore returns on its first iteration with
that error text and no error marker, instead of crashing. -/
theorem C7_provider_error_contained {Args Res : Type}
    (provider : String → ProviderReply Args) (e : String)
    (execTool : String → Args → Res) (fmt : String → Res → String)
    (user_message : String) (conversation_history : List Message)
    (max_iterations : Int) (messages : List Message)
    (hp : ∀ p, provider p = ProviderReply.raised e) (hm : 1 ≤ max_iterations) :
    (geminiChat provider messages = ⟨"Error: " ++ e, []⟩) ∧
    ((chat_with_tools (geminiChat provider) execTool fmt user_message
        conversation_history max_iterations).result =
      ⟨"Error: " ++ e, [], 1, none⟩) := by
  have hg : ∀ m, geminiChat provider m = ⟨"Error: " ++ e, []⟩ := by
    intro m; simp [geminiChat, hp]
  refine ⟨hg messages, ?_⟩
  simp only [chat_with_tools]
  have hfuel : max_iterations.toNat = (max_iterations.toNat - 1) + 1 := by omega
  rw [hfuel]
  simp [chatLoop, hg]

theorem C7_provider_error_contained_witness :
    (geminiChat failingProvider [] = ⟨"Error: boom", []⟩) ∧
    ((chat_with_tools (geminiChat failingProvider) execStub fmtStub "hi" [] 5).result =
      ⟨"Error: boom", [], 1, none⟩) :=
  C7_provider_error_contained failingProvider "boom" execStub fmtStub "hi" [] 5 []
    (fun _ => rfl) (by norm_num)

/-- C8: when the backend call raises, every Data Access Function
swallows the exception: each sequence-returning query returns the empty
list and the single-record query get_product_details returns none, for
all arguments; each embedding is a total function, mirroring that the
exception never escapes. -/
theorem C8_backend_fault_swallowed {Row : Type}
    (rpc : String → List (String × PVal) → CallOutcome (List Row)) (e : String)
    (category : Option String) (limit days : Int) (search_term : String)
    (product_id : Option Int) (product_name : Option String)
    (h : ∀ name params, rpc name params = CallOutcome.raised e) :
    get_top_selling_products rpc category limit days = [] ∧
    get_trending_products rpc days limit = [] ∧
    search_products_by_description rpc search_term = [] ∧
    get_low_stock_products rpc limit = [] ∧
    get_sales_summary_by_category rpc days = [] ∧
    get_product_details rpc product_id product_name = none ∧
    get_recent_transactions rpc limit = [] := by
  simp [get_top_selling_products, get_trending_products,
    search_products_by_description, get_low_stock_products,
    get_sales_summary_by_category, get_product_details,
    get_recent_transactions, h]

theorem C8_backend_fault_swallowed_witness :
    get_top_selling_products failingRpc (some "Wine") 5 30 = [] ∧
    get_trending_products failingRpc 30 5 = [] ∧
    search_products_by_description failingRpc "citrus" = [] ∧
    get_low_stock_products failingRpc 5 = [] ∧
    get_sales_summary_by_category failingRpc 30 = [] ∧
    get_product_details failingRpc (some 1) none = none ∧
    get_recent_transactions failingRpc 5 = [] :=
  C8_backend_fault_swallowed failingRpc "network down" (some "Wine") 5 30 "citrus"
    (some 1) none (fun _ _ => rfl)

/-- C9, counterexample: called with max_iterations = 0 the orchestrator
is not rejected and nothing propagates: it returns the ordinary
fallback result with iterations = 0 and the error marker, after zero
adapter calls. -/
theorem C9_counterexample :
    chat_with_tools toolAdapter execStub fmtStub "q" [] 0 =
      ⟨⟨fallbackMessage, [], 0, some maxIterationsError⟩, [⟨"user", "q"⟩], []⟩ := by
  rfl

/-- C9, amended: chat_with_tools performs no input validation on
max_iterations; for every max_iterations <= 0 the while loop body never
runs and the call returns the ordinary fallback result with
iterations = 0, empty tool_calls_made and the max_iterations_reached
error marker, after zero adapter calls, rather than rejecting the
call. -/
theorem C9_nonpositive_budget {Args Res : Type}
    (chat : List Message → ChatResponse Args) (execTool : String → Args → Res)
    (fmt : String → Res → String) (user_message : String)
    (conversation_history : List Message) (max_iterations : Int)
    (h : max_iterations ≤ 0) :
    chat_with_tools chat execTool fmt user_message conversation_history
        max_iterations =
      ⟨⟨fallbackMessage, [], 0, some maxIterationsError⟩,
        conversation_history ++ [⟨"user", user_message⟩], []⟩ := by
  have h0 : max_iterations.toNat = 0 := by omega
  simp [chat_with_tools, h0, chatLoop]

theorem C9_nonpositive_budget_witness :
    chat_with_tools plainAdapter execStub fmtStub "q" [] (-2) =
      ⟨⟨fallbackMessage, [], 0, some maxIterationsError⟩, [⟨"user", "q"⟩], []⟩ :=
  C9_nonpositive_budget plainAdapter execStub fmtStub "q" [] (-2) (by norm_num)

/-- C10: in an exhausted run (every adapter response carries tool
requests, max_iterations >= 1) the adapter was called exactly
max_iterations times, and the tool requests of the final iteration's
response were executed and recorded: tool_calls_made ends with the
records of the last traced response, even though no further adapter
call follows to report their results. -/
theorem C10_last_iteration_recorded {Args Res : Type}
    (chat : List Message → ChatResponse Args) (execTool : String → Args → Res)
    (fmt : String → Res → String) (user_message : String)
    (conversation_history : List Message) (max_iterations : Int)
    (h1 : 1 ≤ max_iterations) (h2 : ∀ m, (chat m).tool_calls ≠ []) :
    ((chat_with_tools chat execTool fmt user_message conversation_history
        max_iterations).result.error = some maxIterationsError) ∧
    (((chat_with_tools chat execTool fmt user_message conversation_history
        max_iterations).trace.length : Int) = max_iterations) ∧
    (∃ pre r,
      (chat_with_tools chat execTool fmt user_message conversation_history
        max_iterations).trace = pre ++ [r] ∧
      (chat_with_tools chat execTool fmt user_message conversation_history
        max_iterations).result.tool_calls_made =
        traceRecords execTool pre ++ recordsOf execTool r.tool_calls) := by
  obtain ⟨_, he, _, hlen⟩ := chatLoop_exhausted chat execTool fmt h2
    max_iterations.toNat (conversation_history ++ [⟨"user", user_message⟩]) [] 0
  have hmade := chatLoop_tool_calls_made chat execTool fmt max_iterations.toNat
    (conversation_history ++ [⟨"user", user_message⟩]) [] 0
  refine ⟨by simpa [chat_with_tools] using he, ?_, ?_⟩
  · have : (chat_with_tools chat execTool fmt user_message conversation_history
        max_iterations).trace.length = max_iterations.toNat := by
      simpa [chat_with_tools] using hlen
    omega
  · have hne : (chat_with_tools chat execTool fmt user_message conversation_history
        max_iterations).trace ≠ [] := by
      intro hnil
      have : (chat_with_tools chat execTool fmt user_message conversation_history
          max_iterations).trace.length = max_iterations.toNat := by
        simpa [chat_with_tools] using hlen
      rw [hnil] at this
      simp at this
      omega
    rcases List.eq_nil_or_concat
      ((chat_with_tools chat execTool fmt user_message conversation_history
        max_iterations).trace) with hnil | ⟨pre, r, hconcat⟩
    · exact absurd hnil hne
    · refine ⟨pre, r, by simpa [List.concat_eq_append] using hconcat, ?_⟩
      have hm : (chat_with_tools chat execTool fmt user_message conversation_history
          max_iterations).result.tool_calls_made =
          traceRecords execTool
            ((chat_with_tools chat execTool fmt user_message conversation_history
              max_iterations).trace) := by
        simpa [chat_with_tools] using hmade
      rw [hm, show ((chat_with_tools chat execTool fmt user_message
          conversation_history max_iterations).trace) = pre ++ [r] from by
            simpa [List.concat_eq_append] using hconcat]
      simp [traceRecords, List.flatMap_append]

theorem C10_last_iteration_recorded_witness :
    ((chat_with_tools toolAdapter execStub fmtStub "hi" [] 2).result.error =
      some maxIterationsError) ∧
    (((chat_with_tools toolAdapter execStub fmtStub "hi" [] 2).trace.length : Int) = 2) :=
  ⟨(C10_last_iteration_recorded toolAdapter execStub fmtStub "hi" [] 2 (by norm_num)
      (fun m => by simp [toolAdapter])).1,
   (C10_last_iteration_recorded toolAdapter execStub fmtStub "hi" [] 2 (by norm_num)
      (fun m => by simp [toolAdapter])).2.1⟩

end LiSearch
